import Mathlib

/-!
Shallow embedding of `src/btsnoop_parser.py`, a parser for btsnoop HCI
capture files.  Bytes are modelled as `Nat` (each `< 256` in a real
file), byte strings as `List Nat`, the Python slice `l[a:b]` as
`pySlice`, and the parser object's mutable `self.*` lists as a
`ParseState` record threaded through the processing functions.
`datetime` values are modelled as microseconds since the btsnoop epoch
(year 1, day 1); the `try/except` fallback to `datetime.now()` on
datetime overflow is modelled by an ambient wall-clock parameter `now`.
-/

/-- Python slice `l[a:b]` on a byte string (clamps at both ends). -/
def pySlice (l : List Nat) (a b : Nat) : List Nat := (l.drop a).take (b - a)

/-- Python indexing `l[i]` at a position the source has bounds-checked
(out-of-range positions, which would raise `IndexError`, give 0 here and
are never relied upon). -/
def byteAt (l : List Nat) (i : Nat) : Nat := l.getD i 0

/-- Big-endian integer from a byte string (`struct.unpack` with `>I`, `>Q`). -/
def beBytes (l : List Nat) : Nat := l.foldl (fun acc b => 256 * acc + b) 0

/-- Little-endian 16-bit integer from a 2-byte string (`struct.unpack('<H', ...)`). -/
def leU16 (l : List Nat) : Nat := byteAt l 0 + 256 * byteAt l 1

/-- The 8-byte magic constant `b'btsnoop\x00'`. -/
def BTSNOOP_MAGIC : List Nat := [0x62, 0x74, 0x73, 0x6E, 0x6F, 0x6F, 0x70, 0x00]

/-- Largest microsecond offset `ts` for which `datetime(1,1,1) +
timedelta(microseconds=ts)` is representable (`datetime.max` is
9999-12-31 23:59:59.999999, i.e. 3652058 days 86399 s 999999 us past the
epoch); beyond it the addition raises `OverflowError`. -/
def MAX_TS : Nat := 315537897599999999

/-- Uppercase hexadecimal digit character, as produced by format `X`. -/
def hexChar (n : Nat) : Char := if n < 10 then Char.ofNat (48 + n) else Char.ofNat (55 + n)

/-- Digit accumulator for uppercase hexadecimal rendering; the first
argument is fuel (`n` itself suffices since a number has at most `n` digits). -/
def toHexCoreF : Nat → Nat → List Char → List Char
  | 0, _, acc => acc
  | fuel + 1, n, acc =>
    if n = 0 then acc else toHexCoreF fuel (n / 16) (hexChar (n % 16) :: acc)

/-- Uppercase hexadecimal rendering of a natural number (Python format `X`). -/
def toHexUpper (n : Nat) : String :=
  if n = 0 then "0" else String.mk (toHexCoreF n n [])

/-- Python format `{:0wX}`: uppercase hex, zero-padded on the left to width `w`. -/
def padHex (w n : Nat) : String :=
  let s := toHexUpper n
  String.mk (List.replicate (w - s.length) '0') ++ s

/-- Address rendering `':'.join(f'{b:02X}' for b in reversed(addr))`. -/
def formatAddr (l : List Nat) : String :=
  String.intercalate ":" (l.reverse.map (padHex 2))

/-- Record of one btsnoop packet (`BtsnoopPacket` dataclass). -/
structure BtsnoopPacket where
  timestamp : Nat
  direction : String
  packet_type : Nat
  data : List Nat
deriving DecidableEq

/-- Connection event (`ConnectionRequest` dataclass). -/
structure ConnectionRequest where
  timestamp : Nat
  direction : String
  bd_addr : String
  link_type : String
  event_type : String
deriving DecidableEq

/-- Disconnection event (`DisconnectionEvent` dataclass). -/
structure DisconnectionEvent where
  timestamp : Nat
  handle : Nat
  reason : Nat
  reason_str : String
deriving DecidableEq

/-- Advertisement observation (`AdvertisementPacket` dataclass). -/
structure AdvertisementPacket where
  timestamp : Nat
  event_type : Nat
  addr_type : String
  bd_addr : String
  rssi : Int
  data : List Nat
deriving DecidableEq

/-- GATT operation (`GattOperation` dataclass). -/
structure GattOperation where
  timestamp : Nat
  direction : String
  operation : String
  handle : Option Nat
  data : List Nat
deriving DecidableEq

/-- The parser's five accumulation lists (`self.packets`, `self.connections`,
`self.disconnections`, `self.advertisements`, `self.gatt_operations`). -/
structure ParseState where
  packets : List BtsnoopPacket
  connections : List ConnectionRequest
  disconnections : List DisconnectionEvent
  advertisements : List AdvertisementPacket
  gatt_operations : List GattOperation
deriving DecidableEq

/-- State right after `__init__`: all five lists empty. -/
def initState : ParseState := ⟨[], [], [], [], []⟩

/-- Componentwise concatenation of two states (used to express that the
decode pass only ever appends). -/
def appendState (a b : ParseState) : ParseState :=
  ⟨a.packets ++ b.packets, a.connections ++ b.connections,
   a.disconnections ++ b.disconnections, a.advertisements ++ b.advertisements,
   a.gatt_operations ++ b.gatt_operations⟩

/-- The `DISCONNECT_REASONS` table; `dict.get` is modelled as a partial lookup. -/
def DISCONNECT_REASONS (r : Nat) : Option String :=
  match r with
  | 0x00 => some "Success"
  | 0x05 => some "Authentication Failure"
  | 0x06 => some "PIN or Key Missing"
  | 0x07 => some "Memory Capacity Exceeded"
  | 0x08 => some "Connection Timeout"
  | 0x09 => some "Connection Limit Exceeded"
  | 0x0C => some "Command Disallowed"
  | 0x13 => some "Remote User Terminated Connection"
  | 0x14 => some "Remote Device Terminated due to Low Resources"
  | 0x15 => some "Remote Device Terminated due to Power Off"
  | 0x16 => some "Connection Terminated by Local Host"
  | 0x1A => some "Unsupported Remote Feature"
  | 0x22 => some "LMP Response Timeout"
  | 0x3E => some "Connection Failed to be Established"
  | _ => none

/-- Reason text: `DISCONNECT_REASONS.get(reason, f"Unknown (0x{reason:02X})")`. -/
def disconnectReasonStr (r : Nat) : String :=
  (DISCONNECT_REASONS r).getD ("Unknown (0x" ++ padHex 2 r ++ ")")

/-- The `ADDR_TYPES` table. -/
def ADDR_TYPES (a : Nat) : Option String :=
  match a with
  | 0x00 => some "Public"
  | 0x01 => some "Random"
  | 0x02 => some "Public Identity"
  | 0x03 => some "Random Identity"
  | _ => none

/-- Address-kind text: `ADDR_TYPES.get(a, f"Unknown({a})")`. -/
def addrTypeStr (a : Nat) : String :=
  (ADDR_TYPES a).getD ("Unknown(" ++ toString a ++ ")")

/-- The `ATT_OPCODES` table mapping ATT opcodes to operation names. -/
def ATT_OPCODES (op : Nat) : Option String :=
  match op with
  | 0x0A => some "Read Request"
  | 0x0B => some "Read Response"
  | 0x08 => some "Read By Type Request"
  | 0x09 => some "Read By Type Response"
  | 0x10 => some "Read By Group Type Request"
  | 0x11 => some "Read By Group Type Response"
  | 0x12 => some "Write Request"
  | 0x13 => some "Write Response"
  | 0x52 => some "Write Command"
  | 0x16 => some "Prepare Write Request"
  | 0x17 => some "Prepare Write Response"
  | 0x18 => some "Execute Write Request"
  | 0x19 => some "Execute Write Response"
  | _ => none

/-- RSSI byte of an advertising sub-record, lines 341-344 of the source:
`rssi = params[offset] if offset < len(params) else 0`, then signed
reinterpretation `if rssi > 127: rssi -= 256`. -/
def decodeRssi (params : List Nat) (off : Nat) : Int :=
  let r := if off < params.length then byteAt params off else 0
  if r > 127 then (r : Int) - 256 else (r : Int)

/-- Event parameter block `params = pkt.data[2:2+param_len]` of an HCI event. -/
def hciEventParams (data : List Nat) : List Nat :=
  pySlice data 2 (2 + byteAt data 1)

/-- Command parameter block `params = pkt.data[3:3+param_len]` of an HCI command. -/
def hciCommandParams (data : List Nat) : List Nat :=
  pySlice data 3 (3 + byteAt data 2)

/-- The advertising-report sub-record walk (the `for _ in range(num_reports)`
loop of `_process_le_meta_event`).  The first `Nat` argument after `params`
is the remaining iteration count, the second the current `offset`.  Every
indexed buffer access made by the source goes through the `Option`-valued
indexer `params[i]?`, so a `some` result certifies that no access was out
of bounds (`none` would model an `IndexError`); Python slices cannot read
out of bounds and are modelled by the clamped `pySlice` directly. -/
def advSubRecords (ts : Nat) (params : List Nat) : Nat → Nat → Option (List AdvertisementPacket)
  | 0, _ => some []
  | n + 1, off =>
    if off + 9 > params.length then some []
    else
      match params[off]?, params[off + 1]?, params[off + 8]? with
      | some evType, some aType, some dataLen =>
        let bdAddr := formatAddr (pySlice params (off + 2) (off + 8))
        if off + 9 + dataLen > params.length then some []
        else
          let advData := pySlice params (off + 9) (off + 9 + dataLen)
          let r := decodeRssi params (off + 9 + dataLen)
          match advSubRecords ts params n (off + 9 + dataLen + 1) with
          | some rest => some (⟨ts, evType, addrTypeStr aType, bdAddr, r, advData⟩ :: rest)
          | none => none
      | _, _, _ => none

/-- `_process_le_meta_event` (LE connection complete, LE enhanced
connection complete, LE advertising report).  The `.getD []` on the
sub-record walk discharges the unreachable out-of-bounds case, which is
proved impossible below. -/
def processLeMetaEvent (pkt : BtsnoopPacket) (params : List Nat) (st : ParseState) : ParseState :=
  if params.length < 1 then st
  else
    let subevent := byteAt params 0
    if subevent = 0x01 then
      if 19 ≤ params.length then
        { st with connections := st.connections ++
          [⟨pkt.timestamp, pkt.direction, formatAddr (pySlice params 6 12),
            "LE (" ++ (if byteAt params 4 = 0 then "Master" else "Slave") ++ ", " ++
              addrTypeStr (byteAt params 5) ++ ")",
            "le_connection_complete (status=" ++ toString (byteAt params 1) ++
              ", handle=0x" ++ padHex 4 (leU16 (pySlice params 2 4) % 4096) ++ ")"⟩] }
      else st
    else if subevent = 0x0A then
      if 31 ≤ params.length then
        { st with connections := st.connections ++
          [⟨pkt.timestamp, pkt.direction, formatAddr (pySlice params 6 12),
            "LE Enhanced (" ++ (if byteAt params 4 = 0 then "Master" else "Slave") ++ ", " ++
              addrTypeStr (byteAt params 5) ++ ")",
            "le_enhanced_connection_complete (status=" ++ toString (byteAt params 1) ++
              ", handle=0x" ++ padHex 4 (leU16 (pySlice params 2 4) % 4096) ++ ")"⟩] }
      else st
    else if subevent = 0x02 then
      if params.length < 2 then st
      else
        { st with advertisements := st.advertisements ++
            (advSubRecords pkt.timestamp params (byteAt params 1) 2).getD [] }
    else st

/-- `_process_hci_event`; `& 0x0FFF` (keep the low 12 bits of the 16-bit
handle field) is written as reduction modulo 4096. -/
def processHciEvent (pkt : BtsnoopPacket) (st : ParseState) : ParseState :=
  if pkt.data.length < 2 then st
  else
    let event_code := byteAt pkt.data 0
    let params := hciEventParams pkt.data
    if event_code = 0x04 then
      if 10 ≤ params.length then
        { st with connections := st.connections ++
          [⟨pkt.timestamp, pkt.direction, formatAddr (pySlice params 0 6),
            if byteAt params 9 = 0 then "SCO" else "ACL", "request"⟩] }
      else st
    else if event_code = 0x03 then
      if 11 ≤ params.length then
        { st with connections := st.connections ++
          [⟨pkt.timestamp, pkt.direction, formatAddr (pySlice params 3 9),
            if byteAt params 9 = 0 then "SCO" else "ACL",
            "complete (status=" ++ toString (byteAt params 0) ++ ")"⟩] }
      else st
    else if event_code = 0x05 then
      if 4 ≤ params.length then
        { st with disconnections := st.disconnections ++
          [⟨pkt.timestamp, leU16 (pySlice params 1 3) % 4096, byteAt params 3,
            disconnectReasonStr (byteAt params 3)⟩] }
      else st
    else if event_code = 0x3E then processLeMetaEvent pkt params st
    else st

/-- `_process_hci_command` (create connection, LE create connection, disconnect). -/
def processHciCommand (pkt : BtsnoopPacket) (st : ParseState) : ParseState :=
  if pkt.data.length < 3 then st
  else
    let opcode := leU16 (pySlice pkt.data 0 2)
    let params := hciCommandParams pkt.data
    if opcode = 0x0405 then
      if 6 ≤ params.length then
        { st with connections := st.connections ++
          [⟨pkt.timestamp, pkt.direction, formatAddr (pySlice params 0 6),
            "ACL", "create_connection_cmd"⟩] }
      else st
    else if opcode = 0x200D then
      if 8 ≤ params.length then
        { st with connections := st.connections ++
          [⟨pkt.timestamp, pkt.direction, formatAddr (pySlice params 2 8),
            "LE", "le_create_connection_cmd"⟩] }
      else st
    else if opcode = 0x0406 then
      if 3 ≤ params.length then
        { st with disconnections := st.disconnections ++
          [⟨pkt.timestamp, leU16 (pySlice params 0 2) % 4096, byteAt params 2,
            "Disconnect Command: " ++ disconnectReasonStr (byteAt params 2)⟩] }
      else st
    else st

/-- `_process_att`: recognized ATT opcodes become GATT operations. -/
def processAtt (pkt : BtsnoopPacket) (att_data : List Nat) (st : ParseState) : ParseState :=
  if att_data.length < 1 then st
  else
    let opcode := byteAt att_data 0
    match ATT_OPCODES opcode with
    | some op_name =>
      let handle : Option Nat :=
        if (opcode = 0x0A ∨ opcode = 0x12 ∨ opcode = 0x52 ∨ opcode = 0x16) ∧
            3 ≤ att_data.length
        then some (leU16 (pySlice att_data 1 3)) else none
      { st with gatt_operations := st.gatt_operations ++
          [⟨pkt.timestamp, pkt.direction, op_name, handle, att_data.drop 1⟩] }
    | none => st

/-- `_process_acl_data`: unwrap the ACL and L2CAP headers and route ATT traffic. -/
def processAclData (pkt : BtsnoopPacket) (st : ParseState) : ParseState :=
  if pkt.data.length < 4 then st
  else
    let acl_len := leU16 (pySlice pkt.data 2 4)
    let acl_data := pySlice pkt.data 4 (4 + acl_len)
    if acl_data.length < 4 then st
    else
      let l2cap_len := leU16 (pySlice acl_data 0 2)
      let cid := leU16 (pySlice acl_data 2 4)
      let l2cap_data := pySlice acl_data 4 (4 + l2cap_len)
      if cid = 0x0004 ∧ 0 < l2cap_data.length then processAtt pkt l2cap_data st
      else st

/-- `_process_packet`: route by the packet-type tag. -/
def processPacket (pkt : BtsnoopPacket) (st : ParseState) : ParseState :=
  if pkt.packet_type = 0x04 then processHciEvent pkt st
  else if pkt.packet_type = 0x01 then processHciCommand pkt st
  else if pkt.packet_type = 0x02 then processAclData pkt st
  else st

/-- Body of one iteration of the record loop in `parse`, after the 24-byte
record header has been split off: timestamp decoding (with the
wall-clock fallback `now` on datetime overflow), direction from flag
bit 0, and packet dispatch for non-empty payloads. -/
def processRecord (now ts flags : Nat) (packet_data : List Nat) (st : ParseState) : ParseState :=
  let timestamp := if ts ≤ MAX_TS then ts else now
  let direction := if flags % 2 = 1 then "received" else "sent"
  if 0 < packet_data.length then
    let pkt : BtsnoopPacket := ⟨timestamp, direction, byteAt packet_data 0, packet_data.drop 1⟩
    processPacket pkt { st with packets := st.packets ++ [pkt] }
  else st

/-- The record loop of `parse`, with an explicit fuel argument so the
function is structurally recursive; `rest.length` fuel always suffices
because each iteration consumes at least the 24 header bytes.  Header
layout `>IIIIQ`: original length 0-3, included length 4-7, flags 8-11,
drops 12-15, timestamp 16-23. -/
def parseRecordsGo (now : Nat) : Nat → List Nat → ParseState → ParseState
  | 0, _, st => st
  | fuel + 1, rest, st =>
    if rest.length < 24 then st
    else
      let incl_len := beBytes (pySlice rest 4 8)
      let flags := beBytes (pySlice rest 8 12)
      let ts := beBytes (pySlice rest 16 24)
      let packet_data := pySlice rest 24 (24 + incl_len)
      if packet_data.length < incl_len then st
      else
        parseRecordsGo now fuel (rest.drop (24 + incl_len))
          (processRecord now ts flags packet_data st)

/-- The record loop of `parse` on the bytes following the 16-byte file header. -/
def parseRecords (now : Nat) (rest : List Nat) (st : ParseState) : ParseState :=
  parseRecordsGo now rest.length rest st

/-- `parse` on a whole file: header validation then the record loop.  A
`ValueError` is modelled as `Except.error`; since Python raises it before
any record is read, the state component is returned unchanged in the
error cases. -/
def parseRun (now : Nat) (st : ParseState) (file : List Nat) : Except String Unit × ParseState :=
  if file.length < 16 then (Except.error "File too small to be a valid btsnoop file", st)
  else if file.take 8 ≠ BTSNOOP_MAGIC then (Except.error "Invalid btsnoop magic", st)
  else (Except.ok (), parseRecords now (file.drop 16) st)

/-- Whether `parse` raised the fatal format error (`ValueError`). -/
def isFormatError : Except String Unit → Bool
  | Except.error _ => true
  | Except.ok _ => false

/-- Included-length field (bytes 4-7, big-endian) of a record's 24-byte header. -/
def inclLenOf (c : List Nat) : Nat := beBytes (pySlice c 4 8)

/-- Flags field (bytes 8-11, big-endian) of a record's 24-byte header. -/
def flagsOf (c : List Nat) : Nat := beBytes (pySlice c 8 12)

/-- Timestamp field (bytes 16-23, big-endian u64) of a record's 24-byte header. -/
def tsOf (c : List Nat) : Nat := beBytes (pySlice c 16 24)

/-- Payload of a record chunk: the `included length` bytes after the header. -/
def payloadOf (c : List Nat) : List Nat := pySlice c 24 (24 + inclLenOf c)

/-- A byte chunk holding exactly one complete capture record: a 24-byte
header followed by exactly the declared number of payload bytes. -/
def isCompleteRecord (c : List Nat) : Prop := c.length = 24 + inclLenOf c

/-- A byte tail at which the record loop stops: fewer than 24 bytes for
the next header, or fewer payload bytes than the header declares. -/
def isTruncatedTail (t : List Nat) : Prop :=
  t.length < 24 ∨ t.length - 24 < inclLenOf t

/-- Effect of one complete record chunk on a running state. -/
def recordStep (now : Nat) (c : List Nat) (st : ParseState) : ParseState :=
  processRecord now (tsOf c) (flagsOf c) (payloadOf c) st

/-- The events contributed by one record chunk alone. -/
def recordDelta (now : Nat) (c : List Nat) : ParseState := recordStep now c initState

/-- All four event lists of a state carry timestamp `t`. -/
def eventsStamped (t : Nat) (st : ParseState) : Prop :=
  (∀ e ∈ st.connections, e.timestamp = t) ∧
  (∀ e ∈ st.disconnections, e.timestamp = t) ∧
  (∀ e ∈ st.advertisements, e.timestamp = t) ∧
  (∀ e ∈ st.gatt_operations, e.timestamp = t)

/-- Specification-side value of an uppercase hexadecimal digit character. -/
def hexDigitValue (c : Char) : Option Nat :=
  if 48 ≤ c.toNat ∧ c.toNat ≤ 57 then some (c.toNat - 48)
  else if 65 ≤ c.toNat ∧ c.toNat ≤ 70 then some (c.toNat - 55)
  else none

/-- Specification-side reading of a two-uppercase-hex-digit string. -/
def hexPairValue (s : String) : Option Nat :=
  match s.data with
  | [c1, c2] =>
    match hexDigitValue c1, hexDigitValue c2 with
    | some hi, some lo => some (16 * hi + lo)
    | _, _ => none
  | _ => none

theorem length_pySlice (l : List Nat) (a b : Nat) :
    (pySlice l a b).length = min (b - a) (l.length - a) := by
  unfold pySlice
  rw [List.length_take, List.length_drop]

theorem pySlice_append (c x : List Nat) (a b : Nat) (h : b ≤ c.length) :
    pySlice (c ++ x) a b = pySlice c a b := by
  unfold pySlice
  rw [List.drop_append_eq_append_drop, List.take_append_eq_append_take]
  have h0 : b - a - (c.drop a).length = 0 := by
    rw [List.length_drop]; omega
  rw [h0, List.take_zero, List.append_nil]

theorem parseRecords_nil (now : Nat) (st : ParseState) : parseRecords now [] st = st := by
  simp [parseRecords, parseRecordsGo]

theorem parseRecordsGo_congr (now : Nat) :
    ∀ f1 f2 (rest : List Nat) (st : ParseState), rest.length ≤ f1 → rest.length ≤ f2 →
      parseRecordsGo now f1 rest st = parseRecordsGo now f2 rest st := by
  intro f1
  induction f1 with
  | zero =>
    intro f2 rest st h1 h2
    have hr : rest = [] := List.length_eq_zero.mp (Nat.le_zero.mp h1)
    subst hr
    cases f2 <;> simp [parseRecordsGo]
  | succ f ih =>
    intro f2 rest st h1 h2
    cases f2 with
    | zero =>
      have hr : rest = [] := List.length_eq_zero.mp (Nat.le_zero.mp h2)
      subst hr
      simp [parseRecordsGo]
    | succ g =>
      simp only [parseRecordsGo]
      split
      · rfl
      · split
        · rfl
        · apply ih
          · rw [List.length_drop]; omega
          · rw [List.length_drop]; omega

theorem parseRecords_eq (now : Nat) (rest : List Nat) (st : ParseState) :
    parseRecords now rest st =
      if rest.length < 24 then st
      else
        if (pySlice rest 24 (24 + beBytes (pySlice rest 4 8))).length <
            beBytes (pySlice rest 4 8) then st
        else
          parseRecords now (rest.drop (24 + beBytes (pySlice rest 4 8)))
            (processRecord now (beBytes (pySlice rest 16 24)) (beBytes (pySlice rest 8 12))
              (pySlice rest 24 (24 + beBytes (pySlice rest 4 8))) st) := by
  unfold parseRecords
  cases h : rest.length with
  | zero =>
    have hr : rest = [] := List.length_eq_zero.mp h
    subst hr
    simp [parseRecordsGo]
  | succ n =>
    simp only [parseRecordsGo]
    rw [h]
    split
    · rfl
    · split
      · rfl
      · apply parseRecordsGo_congr
        · rw [List.length_drop]; omega
        · exact Nat.le_refl _

theorem parseRecords_cons (now : Nat) (c x : List Nat) (st : ParseState)
    (hc : isCompleteRecord c) :
    parseRecords now (c ++ x) st = parseRecords now x (recordStep now c st) := by
  have hlen : c.length = 24 + inclLenOf c := hc
  rw [parseRecords_eq]
  have h1 : beBytes (pySlice (c ++ x) 4 8) = inclLenOf c := by
    rw [pySlice_append c x 4 8 (by omega)]; rfl
  have h2 : beBytes (pySlice (c ++ x) 8 12) = flagsOf c := by
    rw [pySlice_append c x 8 12 (by omega)]; rfl
  have h3 : beBytes (pySlice (c ++ x) 16 24) = tsOf c := by
    rw [pySlice_append c x 16 24 (by omega)]; rfl
  have h4 : pySlice (c ++ x) 24 (24 + inclLenOf c) = payloadOf c := by
    rw [pySlice_append c x 24 (24 + inclLenOf c) (by omega)]; rfl
  rw [h1, h2, h3, h4]
  have h5 : (payloadOf c).length = inclLenOf c := by
    unfold payloadOf
    rw [length_pySlice]; omega
  have h6 : (c ++ x).drop (24 + inclLenOf c) = x := by
    rw [List.drop_append_eq_append_drop, ← hlen, List.drop_length]
    simp [hlen]
  rw [if_neg (by rw [List.length_append]; omega), if_neg (by omega), h6]
  rfl

theorem parseRecords_truncated (now : Nat) (t : List Nat) (st : ParseState)
    (ht : isTruncatedTail t) :
    parseRecords now t st = st := by
  rw [parseRecords_eq]
  rcases ht with h | h
  · rw [if_pos h]
  · by_cases h24 : t.length < 24
    · rw [if_pos h24]
    · rw [if_neg h24, if_pos]
      rw [length_pySlice]
      unfold inclLenOf at h
      omega

theorem parseRecords_flatten_trunc (now : Nat) (rs : List (List Nat)) (t : List Nat)
    (hrs : ∀ c ∈ rs, isCompleteRecord c) (ht : isTruncatedTail t) :
    ∀ st : ParseState, parseRecords now (rs.flatten ++ t) st = parseRecords now rs.flatten st := by
  induction rs with
  | nil =>
    intro st
    simp only [List.flatten_nil, List.nil_append]
    rw [parseRecords_truncated now t st ht, parseRecords_nil]
  | cons c rs ih =>
    intro st
    have hc : isCompleteRecord c := hrs c (by simp)
    have hrs' : ∀ d ∈ rs, isCompleteRecord d := fun d hd => hrs d (by simp [hd])
    simp only [List.flatten_cons, List.append_assoc]
    rw [parseRecords_cons now c _ st hc, parseRecords_cons now c _ st hc, ih hrs']

theorem parseRecords_flatten_foldl (now : Nat) (rs : List (List Nat))
    (hrs : ∀ c ∈ rs, isCompleteRecord c) :
    ∀ st : ParseState,
      parseRecords now rs.flatten st = rs.foldl (fun s c => recordStep now c s) st := by
  induction rs with
  | nil =>
    intro st
    simp only [List.flatten_nil, List.foldl_nil]
    exact parseRecords_nil now st
  | cons c rs ih =>
    intro st
    have hc : isCompleteRecord c := hrs c (by simp)
    have hrs' : ∀ d ∈ rs, isCompleteRecord d := fun d hd => hrs d (by simp [hd])
    simp only [List.flatten_cons, List.foldl_cons]
    rw [parseRecords_cons now c _ st hc, ih hrs']

theorem appendState_init_right (a : ParseState) : appendState a initState = a := by
  simp [appendState, initState]

theorem processLeMetaEvent_hom (pkt : BtsnoopPacket) (params : List Nat) (a b : ParseState) :
    processLeMetaEvent pkt params (appendState a b) = appendState a (processLeMetaEvent pkt params b) := by
  unfold processLeMetaEvent
  dsimp only
  split_ifs <;> simp [appendState]

theorem processHciEvent_hom (pkt : BtsnoopPacket) (a b : ParseState) :
    processHciEvent pkt (appendState a b) = appendState a (processHciEvent pkt b) := by
  unfold processHciEvent
  dsimp only
  split_ifs <;> first
    | rfl
    | exact processLeMetaEvent_hom pkt _ a b
    | simp [appendState]

set_option maxHeartbeats 1000000 in
theorem processHciCommand_hom (pkt : BtsnoopPacket) (a b : ParseState) :
    processHciCommand pkt (appendState a b) = appendState a (processHciCommand pkt b) := by
  unfold processHciCommand
  dsimp only
  split_ifs <;> simp [appendState]

theorem processAtt_hom (pkt : BtsnoopPacket) (d : List Nat) (a b : ParseState) :
    processAtt pkt d (appendState a b) = appendState a (processAtt pkt d b) := by
  unfold processAtt
  dsimp only
  split
  · rfl
  · rcases h : ATT_OPCODES (byteAt d 0) with _ | name <;> simp [h, appendState]

theorem processAclData_hom (pkt : BtsnoopPacket) (a b : ParseState) :
    processAclData pkt (appendState a b) = appendState a (processAclData pkt b) := by
  unfold processAclData
  dsimp only
  split
  · rfl
  · split
    · rfl
    · split
      · exact processAtt_hom pkt _ a b
      · rfl

theorem processPacket_hom (pkt : BtsnoopPacket) (a b : ParseState) :
    processPacket pkt (appendState a b) = appendState a (processPacket pkt b) := by
  unfold processPacket
  split_ifs <;> first
    | rfl
    | exact processHciEvent_hom pkt a b
    | exact processHciCommand_hom pkt a b
    | exact processAclData_hom pkt a b

theorem processRecord_hom (now ts flags : Nat) (pd : List Nat) (a b : ParseState) :
    processRecord now ts flags pd (appendState a b) = appendState a (processRecord now ts flags pd b) := by
  unfold processRecord
  dsimp only
  split
  · have step : ∀ (p : BtsnoopPacket) (s1 s2 : ParseState), s1 = appendState a s2 →
        processPacket p s1 = appendState a (processPacket p s2) := by
      intro p s1 s2 h1
      rw [h1, processPacket_hom]
    apply step
    simp [appendState]
  · rfl

theorem recordStep_hom (now : Nat) (c : List Nat) (st : ParseState) :
    recordStep now c st = appendState st (recordDelta now c) := by
  unfold recordStep recordDelta
  conv_lhs => rw [← appendState_init_right st]
  rw [processRecord_hom]
  rfl

theorem byteAt_eq_getElem (l : List Nat) (i : Nat) (h : i < l.length) : byteAt l i = l[i] :=
  List.getD_eq_getElem l 0 h

theorem byteAt_le_255 (l : List Nat) (hb : ∀ x ∈ l, x < 256) (i : Nat) : byteAt l i ≤ 255 := by
  unfold byteAt
  by_cases h : i < l.length
  · rw [List.getD_eq_getElem l 0 h]
    have := hb _ (List.getElem_mem h)
    omega
  · rw [List.getD_eq_default l 0 (by omega)]
    omega

theorem advSubRecords_total (ts : Nat) (params : List Nat) :
    ∀ n off, ∃ l, advSubRecords ts params n off = some l ∧ l.length ≤ n := by
  intro n
  induction n with
  | zero => intro off; exact ⟨[], rfl, Nat.le_refl 0⟩
  | succ n ih =>
    intro off
    simp only [advSubRecords]
    by_cases h9 : off + 9 > params.length
    · rw [if_pos h9]
      exact ⟨[], rfl, by simp⟩
    · rw [if_neg h9]
      have hoff : off < params.length := by omega
      have hoff1 : off + 1 < params.length := by omega
      have hoff8 : off + 8 < params.length := by omega
      rw [List.getElem?_eq_getElem hoff, List.getElem?_eq_getElem hoff1,
        List.getElem?_eq_getElem hoff8]
      dsimp only
      by_cases hdl : off + 9 + params[off + 8] > params.length
      · rw [if_pos hdl]
        exact ⟨[], rfl, by simp⟩
      · rw [if_neg hdl]
        obtain ⟨l, hl, hlen⟩ := ih (off + 9 + params[off + 8] + 1)
        rw [hl]
        refine ⟨_, rfl, ?_⟩
        simp only [List.length_cons]
        omega

theorem advSubRecords_stamped (ts : Nat) (params : List Nat) :
    ∀ n off l, advSubRecords ts params n off = some l → ∀ e ∈ l, e.timestamp = ts := by
  intro n
  induction n with
  | zero =>
    intro off l h e he
    simp only [advSubRecords, Option.some.injEq] at h
    subst h
    simp at he
  | succ n ih =>
    intro off l h e he
    simp only [advSubRecords] at h
    split at h
    · simp only [Option.some.injEq] at h
      subst h
      simp at he
    · split at h
      · split at h
        · simp only [Option.some.injEq] at h
          subst h
          simp at he
        · split at h
          · simp only [Option.some.injEq] at h
            subst h
            rcases List.mem_cons.mp he with rfl | hmem
            · rfl
            · exact ih _ _ (by assumption) e hmem
          · exact absurd h (by simp)
      · exact absurd h (by simp)

theorem eventsStamped_init (t : Nat) : eventsStamped t initState := by
  simp [eventsStamped, initState]

theorem stamped_push_conn (t : Nat) (st : ParseState) (h : eventsStamped t st)
    (l : List ConnectionRequest) (hl : ∀ e ∈ l, e.timestamp = t) :
    eventsStamped t { st with connections := st.connections ++ l } := by
  obtain ⟨h1, h2, h3, h4⟩ := h
  refine ⟨?_, h2, h3, h4⟩
  intro e he
  rcases List.mem_append.mp he with hm | hm
  · exact h1 e hm
  · exact hl e hm

theorem stamped_push_disc (t : Nat) (st : ParseState) (h : eventsStamped t st)
    (l : List DisconnectionEvent) (hl : ∀ e ∈ l, e.timestamp = t) :
    eventsStamped t { st with disconnections := st.disconnections ++ l } := by
  obtain ⟨h1, h2, h3, h4⟩ := h
  refine ⟨h1, ?_, h3, h4⟩
  intro e he
  rcases List.mem_append.mp he with hm | hm
  · exact h2 e hm
  · exact hl e hm

theorem stamped_push_adv (t : Nat) (st : ParseState) (h : eventsStamped t st)
    (l : List AdvertisementPacket) (hl : ∀ e ∈ l, e.timestamp = t) :
    eventsStamped t { st with advertisements := st.advertisements ++ l } := by
  obtain ⟨h1, h2, h3, h4⟩ := h
  refine ⟨h1, h2, ?_, h4⟩
  intro e he
  rcases List.mem_append.mp he with hm | hm
  · exact h3 e hm
  · exact hl e hm

theorem stamped_push_gatt (t : Nat) (st : ParseState) (h : eventsStamped t st)
    (l : List GattOperation) (hl : ∀ e ∈ l, e.timestamp = t) :
    eventsStamped t { st with gatt_operations := st.gatt_operations ++ l } := by
  obtain ⟨h1, h2, h3, h4⟩ := h
  refine ⟨h1, h2, h3, ?_⟩
  intro e he
  rcases List.mem_append.mp he with hm | hm
  · exact h4 e hm
  · exact hl e hm

theorem processLeMetaEvent_stamped (pkt : BtsnoopPacket) (params : List Nat) (st : ParseState)
    (h : eventsStamped pkt.timestamp st) :
    eventsStamped pkt.timestamp (processLeMetaEvent pkt params st) := by
  unfold processLeMetaEvent
  dsimp only
  split_ifs <;> first
    | exact h
    | (apply stamped_push_conn _ _ h
       intro e he
       rw [List.mem_singleton.mp he])
    | (apply stamped_push_adv _ _ h
       intro e he
       rcases hW : advSubRecords pkt.timestamp params (byteAt params 1) 2 with _ | l
       · rw [hW] at he
         simp at he
       · rw [hW] at he
         exact advSubRecords_stamped _ _ _ _ _ hW e he)

theorem processHciEvent_stamped (pkt : BtsnoopPacket) (st : ParseState)
    (h : eventsStamped pkt.timestamp st) :
    eventsStamped pkt.timestamp (processHciEvent pkt st) := by
  unfold processHciEvent
  dsimp only
  split_ifs <;> first
    | exact h
    | exact processLeMetaEvent_stamped pkt _ st h
    | (apply stamped_push_conn _ _ h
       intro e he
       rw [List.mem_singleton.mp he])
    | (apply stamped_push_disc _ _ h
       intro e he
       rw [List.mem_singleton.mp he])

theorem processHciCommand_stamped (pkt : BtsnoopPacket) (st : ParseState)
    (h : eventsStamped pkt.timestamp st) :
    eventsStamped pkt.timestamp (processHciCommand pkt st) := by
  unfold processHciCommand
  dsimp only
  split_ifs <;> first
    | exact h
    | (apply stamped_push_conn _ _ h
       intro e he
       rw [List.mem_singleton.mp he])
    | (apply stamped_push_disc _ _ h
       intro e he
       rw [List.mem_singleton.mp he])

theorem processAtt_stamped (pkt : BtsnoopPacket) (d : List Nat) (st : ParseState)
    (h : eventsStamped pkt.timestamp st) :
    eventsStamped pkt.timestamp (processAtt pkt d st) := by
  unfold processAtt
  dsimp only
  split
  · exact h
  · split
    · apply stamped_push_gatt _ _ h
      intro e he
      rw [List.mem_singleton.mp he]
    · exact h

theorem processAclData_stamped (pkt : BtsnoopPacket) (st : ParseState)
    (h : eventsStamped pkt.timestamp st) :
    eventsStamped pkt.timestamp (processAclData pkt st) := by
  unfold processAclData
  dsimp only
  split
  · exact h
  · split
    · exact h
    · split
      · exact processAtt_stamped pkt _ st h
      · exact h

theorem processPacket_stamped (pkt : BtsnoopPacket) (st : ParseState)
    (h : eventsStamped pkt.timestamp st) :
    eventsStamped pkt.timestamp (processPacket pkt st) := by
  unfold processPacket
  split_ifs <;> first
    | exact h
    | exact processHciEvent_stamped pkt st h
    | exact processHciCommand_stamped pkt st h
    | exact processAclData_stamped pkt st h

theorem recordDelta_stamped (now : Nat) (c : List Nat) (h : tsOf c ≤ MAX_TS) :
    eventsStamped (tsOf c) (recordDelta now c) := by
  unfold recordDelta recordStep processRecord
  dsimp only
  rw [if_pos h]
  split
  · apply processPacket_stamped
    exact ⟨by simp [initState], by simp [initState], by simp [initState], by simp [initState]⟩
  · exact eventsStamped_init _

theorem processLeMetaEvent_disc (pkt : BtsnoopPacket) (params : List Nat) (st : ParseState) :
    (processLeMetaEvent pkt params st).disconnections = st.disconnections := by
  unfold processLeMetaEvent
  dsimp only
  split_ifs <;> rfl

theorem advSubRecords_succ (ts : Nat) (params : List Nat) (n off : Nat) :
    advSubRecords ts params (n + 1) off =
      if off + 9 > params.length then some []
      else
        match params[off]?, params[off + 1]?, params[off + 8]? with
        | some evType, some aType, some dataLen =>
          if off + 9 + dataLen > params.length then some []
          else
            match advSubRecords ts params n (off + 9 + dataLen + 1) with
            | some rest => some (⟨ts, evType, addrTypeStr aType,
                formatAddr (pySlice params (off + 2) (off + 8)),
                decodeRssi params (off + 9 + dataLen),
                pySlice params (off + 9) (off + 9 + dataLen)⟩ :: rest)
            | none => none
        | _, _, _ => none := rfl

set_option maxRecDepth 4096 in
theorem padHex2_hexPair : ∀ b, b < 256 → hexPairValue (padHex 2 b) = some b := by decide

/-- C5: `parse` raises the fatal format error exactly when fewer than 16
header bytes are available or the first 8 bytes differ from the btsnoop
magic; with a correct magic it never raises, whatever the version and
link-type fields hold. -/
theorem parse_header_fatal_iff (now : Nat) (file : List Nat) :
    isFormatError (parseRun now initState file).1 = true ↔
      file.length < 16 ∨ file.take 8 ≠ BTSNOOP_MAGIC := by
  unfold parseRun
  split_ifs with h1 h2
  · simp [isFormatError, h1]
  · simp [isFormatError, h2]
  · simp [isFormatError, h1, h2]

/-- C10: when `parse` raises the fatal format error, all four event
collections and the packet list are still empty: the error fires before
any record is read or any state is mutated. -/
theorem parse_header_atomic (now : Nat) (file : List Nat)
    (h : isFormatError (parseRun now initState file).1 = true) :
    (parseRun now initState file).2.packets = [] ∧
    (parseRun now initState file).2.connections = [] ∧
    (parseRun now initState file).2.disconnections = [] ∧
    (parseRun now initState file).2.advertisements = [] ∧
    (parseRun now initState file).2.gatt_operations = [] := by
  unfold parseRun at h ⊢
  split_ifs at h ⊢ <;> first
    | exact ⟨rfl, rfl, rfl, rfl, rfl⟩
    | simp [isFormatError] at h

/-- Witness for C10 at the empty file. -/
theorem parse_header_atomic_witness :
    (parseRun 0 initState []).2.packets = [] ∧
    (parseRun 0 initState []).2.connections = [] ∧
    (parseRun 0 initState []).2.disconnections = [] ∧
    (parseRun 0 initState []).2.advertisements = [] ∧
    (parseRun 0 initState []).2.gatt_operations = [] :=
  parse_header_atomic 0 [] (by decide)

/-- C4: a capture that is truncated at the record level — mid record
header or mid payload — parses with no error to exactly the events of
the preceding complete records: the result equals that of the same
capture with the truncated tail removed. -/
theorem parse_truncated_tail (now : Nat) (hdr : List Nat) (rs : List (List Nat)) (t : List Nat)
    (hh : hdr.length = 16) (hm : hdr.take 8 = BTSNOOP_MAGIC)
    (hrs : ∀ c ∈ rs, isCompleteRecord c) (ht : isTruncatedTail t) :
    parseRun now initState (hdr ++ (rs.flatten ++ t)) = parseRun now initState (hdr ++ rs.flatten) ∧
    (parseRun now initState (hdr ++ (rs.flatten ++ t))).1 = Except.ok () := by
  have hTake : ∀ x : List Nat, (hdr ++ x).take 8 = BTSNOOP_MAGIC := by
    intro x
    rw [List.take_append_eq_append_take]
    rw [show 8 - hdr.length = 0 from by omega]
    rw [List.take_zero, List.append_nil]
    rw [← hm]
  have hLen : ∀ x : List Nat, ¬ (hdr ++ x).length < 16 := by
    intro x
    rw [List.length_append]
    omega
  have hDrop : ∀ x : List Nat, (hdr ++ x).drop 16 = x := by
    intro x
    rw [List.drop_append_eq_append_drop, ← hh, List.drop_length]
    simp [hh]
  unfold parseRun
  rw [if_neg (hLen _), if_neg (hLen _),
    if_neg (not_not_intro (hTake _)), if_neg (not_not_intro (hTake _)),
    hDrop, hDrop]
  constructor
  · rw [parseRecords_flatten_trunc now rs t hrs ht]
  · rfl

/-- Witness for C4: empty record list, a 1-byte truncated tail. -/
theorem parse_truncated_tail_witness :
    parseRun 0 initState ((BTSNOOP_MAGIC ++ [0, 0, 0, 1, 0, 0, 3, 0xEA]) ++
        (([] : List (List Nat)).flatten ++ [0])) =
      parseRun 0 initState ((BTSNOOP_MAGIC ++ [0, 0, 0, 1, 0, 0, 3, 0xEA]) ++
        ([] : List (List Nat)).flatten) ∧
    (parseRun 0 initState ((BTSNOOP_MAGIC ++ [0, 0, 0, 1, 0, 0, 3, 0xEA]) ++
        (([] : List (List Nat)).flatten ++ [0]))).1 = Except.ok () :=
  parse_truncated_tail 0 (BTSNOOP_MAGIC ++ [0, 0, 0, 1, 0, 0, 3, 0xEA]) [] [0]
    (by decide) (by decide) (by simp) (Or.inl (by decide))

/-- C3 counterexample: a record whose u64 timestamp field is
18446744073709551615 (all 0xFF bytes) produces an event stamped with the
ambient wall clock (12345 here), not with the epoch-decoded value, so
the claim fails for u64 offsets beyond the representable datetime range. -/
theorem parse_timestamp_cex :
    tsOf ([0, 0, 0, 7, 0, 0, 0, 7, 0, 0, 0, 1, 0, 0, 0, 0,
        255, 255, 255, 255, 255, 255, 255, 255] ++ [4, 5, 4, 0, 0x34, 0x12, 0x13]) =
      18446744073709551615 ∧
    ((parseRun 12345 initState ((BTSNOOP_MAGIC ++ [0, 0, 0, 1, 0, 0, 3, 0xEA]) ++
        ([0, 0, 0, 7, 0, 0, 0, 7, 0, 0, 0, 1, 0, 0, 0, 0,
          255, 255, 255, 255, 255, 255, 255, 255] ++
          [4, 5, 4, 0, 0x34, 0x12, 0x13]))).2.disconnections).map
      DisconnectionEvent.timestamp = [12345] ∧
    (12345 : Nat) ≠ 18446744073709551615 := by
  refine ⟨by decide, by decide, by decide⟩

/-- C3 (amended): over complete records whose u64 timestamp offsets are
representable (at most `MAX_TS`), the four collections are exactly the
in-file-order concatenation of each record's own events, and every event
of a record carries that record's header-decoded timestamp. -/
theorem parse_order_and_timestamps (now : Nat) (rs : List (List Nat))
    (hrs : ∀ c ∈ rs, isCompleteRecord c) (hts : ∀ c ∈ rs, tsOf c ≤ MAX_TS) :
    parseRecords now rs.flatten initState =
      rs.foldl (fun s c => appendState s (recordDelta now c)) initState ∧
    ∀ c ∈ rs, eventsStamped (tsOf c) (recordDelta now c) := by
  constructor
  · rw [parseRecords_flatten_foldl now rs hrs initState]
    have hfun : (fun (s : ParseState) c => recordStep now c s) =
        fun s c => appendState s (recordDelta now c) := by
      funext s c
      exact recordStep_hom now c s
    rw [hfun]
  · intro c hc
    exact recordDelta_stamped now c (hts c hc)

/-- Witness for C3 (amended) at a single all-zero record. -/
theorem parse_order_and_timestamps_witness :
    parseRecords 0 ([List.replicate 24 0]).flatten initState =
      ([List.replicate 24 0]).foldl (fun s c => appendState s (recordDelta 0 c)) initState ∧
    ∀ c ∈ [List.replicate 24 0], eventsStamped (tsOf c) (recordDelta 0 c) :=
  parse_order_and_timestamps 0 [List.replicate 24 0]
    (by
      intro c hc
      rw [List.mem_singleton.mp hc]
      unfold isCompleteRecord
      decide)
    (by
      intro c hc
      rw [List.mem_singleton.mp hc]
      unfold tsOf
      decide)

/-- C1: for any parameter buffer, any iteration count and any starting
offset, the advertising sub-record walk never performs an out-of-bounds
indexed read (its `Option`-instrumented run always returns `some`) and
produces at most as many sub-records as its iteration budget; the budget
the decoder passes is the count byte `params[1]`, which is at most 255
for byte-valued buffers. -/
theorem adv_walk_safe (ts : Nat) (params : List Nat) (hb : ∀ b ∈ params, b < 256) :
    (∀ n off, ∃ l, advSubRecords ts params n off = some l ∧ l.length ≤ n) ∧
    (∃ l, advSubRecords ts params (byteAt params 1) 2 = some l ∧
      l.length ≤ byteAt params 1) ∧
    byteAt params 1 ≤ 255 :=
  ⟨fun n off => advSubRecords_total ts params n off,
   advSubRecords_total ts params _ 2,
   byteAt_le_255 params hb 1⟩

/-- Witness for C1 at a two-byte advertising-report parameter block. -/
theorem adv_walk_safe_witness :
    (∀ n off, ∃ l, advSubRecords 0 [2, 2] n off = some l ∧ l.length ≤ n) ∧
    (∃ l, advSubRecords 0 [2, 2] (byteAt [2, 2] 1) 2 = some l ∧
      l.length ≤ byteAt [2, 2] 1) ∧
    byteAt [2, 2] 1 ≤ 255 :=
  adv_walk_safe 0 [2, 2] (by decide)

/-- C8: the RSSI decoder reinterprets its unsigned byte as signed
(subtract 256 above 127), 0xFF gives -1 and 0x40 gives 64, and a
position past the end of the parameter buffer yields 0. -/
theorem adv_rssi_decode (params params2 : List Nat) (off off2 v : Nat)
    (h1 : params[off]? = some v) (h2 : params2.length ≤ off2) :
    decodeRssi params off = (if 127 < v then (v : Int) - 256 else (v : Int)) ∧
    decodeRssi params2 off2 = 0 ∧
    decodeRssi [0xFF] 0 = -1 ∧
    decodeRssi [0x40] 0 = 64 := by
  refine ⟨?_, ?_, by decide, by decide⟩
  · have hlt : off < params.length := by
      by_contra hc
      rw [List.getElem?_eq_none (by omega)] at h1
      exact Option.noConfusion h1
    have hv : byteAt params off = v := by
      rw [byteAt_eq_getElem params off hlt]
      rw [List.getElem?_eq_getElem hlt] at h1
      exact Option.some.inj h1
    unfold decodeRssi
    dsimp only
    rw [if_pos hlt, hv]
  · unfold decodeRssi
    dsimp only
    rw [if_neg (by omega : ¬ off2 < params2.length)]
    norm_num

/-- Witness for C8 at byte 200 and the empty buffer. -/
theorem adv_rssi_decode_witness :
    decodeRssi [200] 0 = (if 127 < 200 then ((200 : Nat) : Int) - 256 else ((200 : Nat) : Int)) ∧
    decodeRssi [] 0 = 0 ∧
    decodeRssi [0xFF] 0 = -1 ∧
    decodeRssi [0x40] 0 = 64 :=
  adv_rssi_decode [200] [] 0 0 200 (by decide) (by decide)

/-- C9: a rendered hardware address is the colon-joined uppercase
two-hex-digit renderings of the bytes in reversed order: each byte's
rendering reads back to the byte itself, and the concrete bytes
01..06 render as 06:05:04:03:02:01. -/
theorem adv_addr_rendering (l : List Nat) (hb : ∀ b ∈ l, b < 256) :
    formatAddr l = String.intercalate ":" (l.reverse.map (padHex 2)) ∧
    (∀ b ∈ l, hexPairValue (padHex 2 b) = some b) ∧
    formatAddr [1, 2, 3, 4, 5, 6] = "06:05:04:03:02:01" := by
  refine ⟨rfl, ?_, by decide⟩
  intro b hbl
  exact padHex2_hexPair b (hb b hbl)

/-- Witness for C9 at the bytes 01..06. -/
theorem adv_addr_rendering_witness :
    formatAddr [1, 2, 3, 4, 5, 6] =
      String.intercalate ":" (([1, 2, 3, 4, 5, 6] : List Nat).reverse.map (padHex 2)) ∧
    (∀ b ∈ ([1, 2, 3, 4, 5, 6] : List Nat), hexPairValue (padHex 2 b) = some b) ∧
    formatAddr [1, 2, 3, 4, 5, 6] = "06:05:04:03:02:01" :=
  adv_addr_rendering [1, 2, 3, 4, 5, 6] (by decide)

/-- C7 counterexample: reason code 0x01 is not in the table and the
decoder renders it as "Unknown (0x01)" — with a space — which differs
from the claimed "Unknown(0x01)". -/
theorem disconnect_reason_cex :
    (processHciEvent ⟨0, "received", 4, [0x05, 0x04, 0x00, 0x34, 0x12, 0x01]⟩
        initState).disconnections =
      [⟨0, 0x0234, 0x01, "Unknown (0x01)"⟩] ∧
    "Unknown (0x01)" ≠ "Unknown(0x01)" := by
  exact ⟨by decide, by decide⟩

/-- C7 (amended): a reason byte absent from the table renders as
"Unknown (0xNN)" — with a space before the parenthesis — where NN is its
uppercase hex, and every emitted disconnection event's description is
exactly the table rendering of its own reason byte. -/
theorem disconnect_reason_unknown (r : Nat) (h : DISCONNECT_REASONS r = none) :
    disconnectReasonStr r = "Unknown (0x" ++ padHex 2 r ++ ")" ∧
    ∀ (pkt : BtsnoopPacket) (st : ParseState) (e : DisconnectionEvent),
      e ∈ (processHciEvent pkt st).disconnections →
        e ∈ st.disconnections ∨ e.reason_str = disconnectReasonStr e.reason := by
  constructor
  · unfold disconnectReasonStr
    rw [h]
    rfl
  · intro pkt st e he
    unfold processHciEvent at he
    dsimp only at he
    split_ifs at he <;> first
      | exact Or.inl he
      | (rw [processLeMetaEvent_disc] at he
         exact Or.inl he)
      | (rcases List.mem_append.mp he with hm | hm
         · exact Or.inl hm
         · rw [List.mem_singleton.mp hm]
           exact Or.inr rfl)

/-- Witness for C7 (amended) at reason code 0x01. -/
theorem disconnect_reason_unknown_witness :
    disconnectReasonStr 1 = "Unknown (0x" ++ padHex 2 1 ++ ")" ∧
    ∀ (pkt : BtsnoopPacket) (st : ParseState) (e : DisconnectionEvent),
      e ∈ (processHciEvent pkt st).disconnections →
        e ∈ st.disconnections ∨ e.reason_str = disconnectReasonStr e.reason :=
  disconnect_reason_unknown 1 (by decide)

/-- C6: a disconnection event emitted by either decoder path carries the
little-endian 16-bit handle field reduced to its low 12 bits (mod 4096),
hence below 0x1000; the bytes 0x34 0x12 give handle 0x0234. -/
theorem disconnect_handle_masked (pkt pkt2 : BtsnoopPacket) (st st2 : ParseState)
    (e e2 : DisconnectionEvent)
    (he : e ∈ (processHciEvent pkt st).disconnections)
    (he2 : e2 ∈ (processHciCommand pkt2 st2).disconnections) :
    (e ∈ st.disconnections ∨
      (e.handle = leU16 (pySlice (hciEventParams pkt.data) 1 3) % 4096 ∧ e.handle < 4096)) ∧
    (e2 ∈ st2.disconnections ∨
      (e2.handle = leU16 (pySlice (hciCommandParams pkt2.data) 0 2) % 4096 ∧ e2.handle < 4096)) ∧
    leU16 [0x34, 0x12] % 4096 = 0x0234 := by
  refine ⟨?_, ?_, by decide⟩
  · unfold processHciEvent at he
    dsimp only at he
    split_ifs at he <;> first
      | exact Or.inl he
      | (rw [processLeMetaEvent_disc] at he
         exact Or.inl he)
      | (rcases List.mem_append.mp he with hm | hm
         · exact Or.inl hm
         · rw [List.mem_singleton.mp hm]
           exact Or.inr ⟨rfl, Nat.mod_lt _ (by norm_num)⟩)
  · unfold processHciCommand at he2
    dsimp only at he2
    split_ifs at he2 <;> first
      | exact Or.inl he2
      | (rcases List.mem_append.mp he2 with hm | hm
         · exact Or.inl hm
         · rw [List.mem_singleton.mp hm]
           exact Or.inr ⟨rfl, Nat.mod_lt _ (by norm_num)⟩)

/-- Witness for C6: a concrete disconnection-complete event packet and a
state already holding a command-side event. -/
theorem disconnect_handle_masked_witness :
    leU16 [0x34, 0x12] % 4096 = 0x0234 :=
  (disconnect_handle_masked
    ⟨0, "received", 4, [0x05, 0x04, 0x00, 0x34, 0x12, 0x01]⟩
    ⟨0, "received", 4, [0x05, 0x04, 0x00, 0x34, 0x12, 0x01]⟩
    initState
    ⟨[], [], [⟨0, 0x0234, 0x01, "Unknown (0x01)"⟩], [], []⟩
    ⟨0, 0x0234, 0x01, "Unknown (0x01)"⟩
    ⟨0, 0x0234, 0x01, "Unknown (0x01)"⟩
    (by decide) (by decide)).2.2

theorem getElem?_eq_some_byteAt (l : List Nat) (i : Nat) (h : i < l.length) :
    l[i]? = some (byteAt l i) := by
  rw [List.getElem?_eq_getElem h, byteAt_eq_getElem l i h]

theorem advSubRecords_stop (ts : Nat) (params : List Nat) (n off : Nat)
    (h : params.length < off + 9 ∨ params.length < off + 9 + byteAt params (off + 8)) :
    advSubRecords ts params (n + 1) off = some [] := by
  rw [advSubRecords_succ]
  by_cases h9 : off + 9 > params.length
  · rw [if_pos h9]
  · rw [if_neg h9]
    rw [getElem?_eq_some_byteAt params off (by omega),
      getElem?_eq_some_byteAt params (off + 1) (by omega),
      getElem?_eq_some_byteAt params (off + 8) (by omega)]
    dsimp only
    rw [if_pos (by omega : off + 9 + byteAt params (off + 8) > params.length)]

theorem advSubRecords_step (ts : Nat) (params : List Nat) (n off : Nat)
    (h9 : off + 9 ≤ params.length)
    (hd : off + 9 + byteAt params (off + 8) ≤ params.length) :
    advSubRecords ts params (n + 1) off =
      match advSubRecords ts params n (off + 9 + byteAt params (off + 8) + 1) with
      | some rest => some (⟨ts, byteAt params off, addrTypeStr (byteAt params (off + 1)),
          formatAddr (pySlice params (off + 2) (off + 8)),
          decodeRssi params (off + 9 + byteAt params (off + 8)),
          pySlice params (off + 9) (off + 9 + byteAt params (off + 8))⟩ :: rest)
      | none => none := by
  rw [advSubRecords_succ]
  rw [if_neg (by omega : ¬ off + 9 > params.length)]
  rw [getElem?_eq_some_byteAt params off (by omega),
    getElem?_eq_some_byteAt params (off + 1) (by omega),
    getElem?_eq_some_byteAt params (off + 8) (by omega)]
  dsimp only
  rw [if_neg (by omega : ¬ off + 9 + byteAt params (off + 8) > params.length)]

/-- C2: an advertising-report parameter block that declares 2 reports but
only holds 1 complete sub-record — the second one's 9-byte prefix or its
declared data bytes do not fit — yields exactly one advertisement,
appended to whatever was already accumulated, with no failure. -/
theorem le_adv_partial_list (pkt : BtsnoopPacket) (params : List Nat) (st : ParseState)
    (hsub : byteAt params 0 = 2) (hnum : byteAt params 1 = 2)
    (hfirst : 12 + byteAt params 10 ≤ params.length)
    (hsecond : params.length < 21 + byteAt params 10 ∨
      params.length < 21 + byteAt params 10 + byteAt params (20 + byteAt params 10)) :
    ∃ a, (processLeMetaEvent pkt params st).advertisements = st.advertisements ++ [a] := by
  have hstep := advSubRecords_step pkt.timestamp params 1 2 (by omega)
    (by rw [show (2 : Nat) + 8 = 10 from by norm_num]; omega)
  norm_num at hstep
  have hstop := advSubRecords_stop pkt.timestamp params 0 (11 + byteAt params 10 + 1)
    (by
      rw [show 11 + byteAt params 10 + 1 + 8 = 20 + byteAt params 10 from by omega]
      rcases hsecond with hA | hB
      · left
        omega
      · right
        omega)
  norm_num at hstop
  rw [hstop] at hstep
  dsimp only at hstep
  unfold processLeMetaEvent
  dsimp only
  rw [if_neg (by omega : ¬ params.length < 1), hsub,
    if_neg (by norm_num : ¬ (2 : Nat) = 1), if_neg (by norm_num : ¬ (2 : Nat) = 10),
    if_pos (by norm_num : (2 : Nat) = 2), if_neg (by omega : ¬ params.length < 2),
    hnum, hstep]
  exact ⟨_, rfl⟩

/-- Witness for C2 at a 12-byte block: two declared reports, one complete
zero-data sub-record, then nothing. -/
theorem le_adv_partial_list_witness :
    ∃ a, (processLeMetaEvent ⟨0, "received", 4, []⟩
        [2, 2, 0, 0, 1, 2, 3, 4, 5, 6, 0, 200] initState).advertisements =
      initState.advertisements ++ [a] :=
  le_adv_partial_list ⟨0, "received", 4, []⟩ [2, 2, 0, 0, 1, 2, 3, 4, 5, 6, 0, 200] initState
    (by decide) (by decide) (by decide) (Or.inl (by decide))
